import Mathlib

/-!
Verification of the ghost-text autocomplete controller
(`src/python/LLMAutoComplete.py`).

Shallow embedding conventions:
* Python strings are `List Char`; `str.strip()` emptiness, `startswith`,
  slicing and negative indexing are translated to the corresponding list
  operations.
* The document is modelled by the text standing before the view cursor,
  as a list of characters each carrying a character style
  (default / ghost / AI-accepted).  The active ghost text sits after the
  cursor and is tracked separately in the controller state, exactly like
  `_ghost_text` in the source.
* Exceptions raised by document mutation are modelled by a `fail : Bool`
  parameter on the mutating operations: `fail = true` means the host call
  raised, the `except` arm caught it, and the `finally` arm still ran.
  Every operation is a total function into `CState`, reflecting that no
  exception escapes to the caller.
* Threading is serialised: the debounce timer callback, the fetch and the
  queue drain are separate atomic steps of a transition relation.
-/

/-- Character styles used by the extension: plain text, the ghost style
(`LLMSuggestion`) and the accepted-AI style (`AIGenerated`). -/
inductive CStyle where
  | default
  | ghostStyle
  | ai
deriving DecidableEq, Repr

/-- One document character together with its character style. -/
abbrev SChar := Char × CStyle

/-- The plain text carried by a styled character list. -/
def content (l : List SChar) : List Char := l.map Prod.fst

/-- Python `s[-n:]` on a list: the last `n` elements. -/
def takeRightL (n : Nat) (l : List Char) : List Char := l.drop (l.length - n)

/-- Delete the last `n` elements (the effect of `goLeft(n); setString("")`).
Like the cursor move, it stops at the start of the document. -/
def dropRightL (n : Nat) (l : List SChar) : List SChar := l.take (l.length - n)

/-- Retag the last `n` characters before the cursor with the AI style
(`ai_cursor.goLeft(n, True); setPropertyValue("CharStyleName", AI_STYLE)`). -/
def retagLast (n : Nat) (l : List SChar) : List SChar :=
  l.take (l.length - n) ++ (l.drop (l.length - n)).map (fun p => (p.1, CStyle.ai))

/-- Whitespace recognised by python `str.strip()` (ASCII range). -/
def isPySpace (c : Char) : Bool :=
  c = ' ' || c = '\t' || c = '\n' || c = '\x0d' || c = '\x0b' || c = '\x0c'

/-- `not prefix.strip()`: the string is empty or whitespace-only. -/
def isBlank (l : List Char) : Bool := l.all isPySpace

/-- `prefix[-1:] in ".!?"`: the text ends in terminal sentence punctuation. -/
def endsSentencePunct (l : List Char) : Bool :=
  match l.getLast? with
  | some c => c = '.' || c = '!' || c = '?'
  | none => false

/-- `_truncate_sentence`: cut after the first sentence-ending punctuation. -/
def truncateSentence : List Char → List Char
  | [] => []
  | c :: rest =>
      if c = '.' || c = '!' || c = '?' then [c]
      else c :: truncateSentence rest

/-- Characters of `' \t'` (stage 1 of `_find_word_boundary`). -/
def isSpTab (c : Char) : Bool := c = ' ' || c = '\t'

/-- Characters of `' \t.,;:!?()[]{}'` that stop the word body. -/
def isWordStop (c : Char) : Bool :=
  isSpTab c || c = '.' || c = ',' || c = ';' || c = ':' || c = '!' || c = '?' ||
  c = '(' || c = ')' || c = '[' || c = ']' || c = '\x7b' || c = '\x7d'

/-- Characters of `'.,;:!?'` (the trailing punctuation run). -/
def isClausePunct (c : Char) : Bool :=
  c = '.' || c = ',' || c = ';' || c = ':' || c = '!' || c = '?'

/-- `AutoCompleteHandler._find_word_boundary`: length of the first word of
the ghost text, bundling trailing punctuation and one following space. -/
def findWordBoundary (l : List Char) : Nat :=
  if l = [] then 0
  else
    let rest1 := l.dropWhile isSpTab
    if rest1 = [] then l.length
    else
      let lead := l.takeWhile isSpTab
      let body := rest1.takeWhile (fun c => !isWordStop c)
      let rest2 := rest1.dropWhile (fun c => !isWordStop c)
      let punct := rest2.takeWhile isClausePunct
      let rest3 := rest2.dropWhile isClausePunct
      let sp := match rest3 with
        | c :: _ => if c = ' ' then 1 else 0
        | [] => 0
      max 1 (lead.length + body.length + punct.length + sp)

/-- The mutable fields of `AutoCompleteHandler` that the verified claims
touch, plus the document text standing before the view cursor. -/
structure CState where
  /-- Styled text before the view cursor (the ghost sits after it). -/
  doc : List SChar
  /-- `_ghost_text` -/
  ghost_text : List Char
  /-- `_ghost_len` -/
  ghost_len : Nat
  /-- `_ghost_cursor is not None` -/
  ghost_anchor : Bool
  /-- `_saved_color` -/
  saved_color : Option Int
  /-- `_accepted_words`, most recent last -/
  accepted_words : List (List Char)
  /-- `_last_text` -/
  last_text : List Char
  /-- `_debounce_context` (`none` = python `None`) -/
  debounce_ctx : Option (List Char)
  /-- a debounce timer is pending (`_timer` set and not yet fired) -/
  timer_pending : Bool
  /-- `_request_context` (`[]` = python `None`/empty, both falsy) -/
  request_context : List Char
  /-- `_ui_queue` contents: bare suggestion strings, no context tag -/
  ui_queue : List (List Char)
  /-- `_querying` -/
  querying : Bool
  /-- `_query_count` -/
  query_count : Nat
  /-- `_last_error` -/
  last_error : List Char
  /-- `_cleanup_next_char` -/
  cleanup_next_char : Bool
  /-- `enabled` -/
  enabled : Bool
  /-- `settings["MaxContextChars"]` -/
  max_context_chars : Nat
deriving DecidableEq, Repr

/-- The handler state right after `__init__` and document registration
(`_last_text = _get_prefix_text()`), with document `d0`. -/
def initState (d0 : List SChar) (mc : Nat) : CState where
  doc := d0
  ghost_text := []
  ghost_len := 0
  ghost_anchor := false
  saved_color := none
  accepted_words := []
  last_text := content d0
  debounce_ctx := none
  timer_pending := false
  request_context := []
  ui_queue := []
  querying := false
  query_count := 0
  last_error := []
  cleanup_next_char := false
  enabled := true
  max_context_chars := mc

/-- `_get_context_text` / the prefix half of `_get_context_pair`:
text before the cursor bounded to the last `MaxContextChars` characters. -/
def getContext (s : CState) : List Char :=
  takeRightL s.max_context_chars (content s.doc)

/-- `_reset_debounce`: cancel the previous timer, snapshot the context,
start a new timer. -/
def resetDebounce (s : CState) : CState :=
  { s with debounce_ctx := some (getContext s), timer_pending := true }

/-- `cancel_debounce`: cancel the pending timer (the stored
`_debounce_context` is left alone). -/
def cancelDebounce (s : CState) : CState := { s with timer_pending := false }

/-- `_insert_ghost(text)`: insert `text` after the cursor, style it with the
ghost style, remember the anchor cursor and the saved colour, move the view
cursor back before it.  `color` is the `CharColor` read from the view
cursor.  `fail = true`: `insertString` (or a later host call) raised; the
`except` arm sets `_last_error` and the ghost fields keep their previous
values, but `_saved_color` has already been captured. -/
def insertGhost (fail : Bool) (color : Int) (t : List Char) (s : CState) : CState :=
  if t = [] then s
  else if fail then
    { s with saved_color := some color, last_error := "Insert error".data }
  else
    { s with saved_color := some color, ghost_anchor := true,
             ghost_text := t, ghost_len := t.length }

/-- `_remove_ghost(keep_stack)`: delete the ghost characters after the
cursor and reset the cursor style; the `finally` arm always clears the
ghost fields and (unless `keep_stack`) the accepted-words stack.
`fail = true`: the deletion raised before `_reset_cursor_style` ran. -/
def removeGhost (fail keep : Bool) (s : CState) : CState :=
  if s.ghost_len = 0 then
    { s with ghost_text := [], ghost_len := 0, ghost_anchor := false,
             accepted_words := if keep then s.accepted_words else [] }
  else
    { s with ghost_text := [], ghost_len := 0, ghost_anchor := false,
             saved_color := none,
             cleanup_next_char := if fail then s.cleanup_next_char else true,
             accepted_words := if keep then s.accepted_words else [] }

/-- `_accept_ghost`: retag the ghost with the AI style, restore the saved
colour, move the view cursor past it (so it becomes text before the
cursor), reset the cursor style and update `_last_text`; the `finally` arm
always clears all ghost state and the accepted-words stack. -/
def acceptGhost (fail : Bool) (s : CState) : CState :=
  if s.ghost_len = 0 then s
  else
    let s1 := if fail then s
      else { s with doc := s.doc ++ s.ghost_text.map (fun c => (c, CStyle.ai)),
                    last_text := content s.doc ++ s.ghost_text,
                    cleanup_next_char := true }
    { s1 with ghost_text := [], ghost_len := 0, ghost_anchor := false,
              saved_color := none, accepted_words := [] }

/-- `_accept_ghost_word`: split the ghost at `_find_word_boundary`; if the
word covers the whole ghost fall back to `_accept_ghost`, otherwise push
the word on `_accepted_words`, remove the ghost, insert the word as
AI-styled text and re-insert the remainder as a fresh ghost.
`fail = true`: the word insertion raised and the handler returned early. -/
def acceptGhostWord (fail : Bool) (color : Int) (s : CState) : CState :=
  if s.ghost_len = 0 then s
  else
    let wl := findWordBoundary s.ghost_text
    if s.ghost_len ≤ wl then acceptGhost fail s
    else
      let accepted := s.ghost_text.take wl
      let remaining := s.ghost_text.drop wl
      let s1 := { s with accepted_words := s.accepted_words ++ [accepted] }
      let s2 := removeGhost false true s1
      if fail then s2
      else
        let s3 := { s2 with
          doc := s2.doc ++ accepted.map (fun c => (c, CStyle.ai)),
          last_text := content s2.doc ++ accepted }
        insertGhost false color remaining s3

/-- `_unaccept_ghost_word`: pop the most recent accepted word, remove the
ghost, delete that many characters before the cursor, and re-insert
`word + remaining` as the new ghost.  `fail = true`: the deletion raised
and the handler returned early. -/
def unacceptGhostWord (fail : Bool) (color : Int) (s : CState) : CState :=
  if s.accepted_words = [] then s
  else
    let word := s.accepted_words.getLastD []
    let remaining := s.ghost_text
    let s1 := { s with accepted_words := s.accepted_words.dropLast }
    let s2 := removeGhost false true s1
    if fail then s2
    else
      let s3 := { s2 with doc := dropRightL word.length s2.doc,
                          last_text := content (dropRightL word.length s2.doc) }
      insertGhost false color (word ++ remaining) s3

/-- `_handle_modification_with_ghost`: a user edit arrived while a ghost
was active.  `nd` is the (styled) text standing before the cursor once the
event has been delivered; the handler first removes the ghost, then
compares the new prefix with `_last_text`: on an exact write-through it
retags the typed characters with the AI style and re-inserts the remaining
ghost, otherwise it drops the ghost and restarts the debounce cycle. -/
def handleModGhost (color : Int) (nd : List SChar) (s : CState) : CState :=
  let g := s.ghost_text
  let s0 := { s with doc := nd, ghost_anchor := false }
  let s1 := removeGhost false false s0
  let newT := content nd
  let oldT := s.last_text
  if oldT = [] ∨ newT = [] then resetDebounce s1
  else if oldT.isPrefixOf newT ∧ oldT.length < newT.length then
    let typed := newT.drop oldT.length
    if typed.isPrefixOf g then
      let s2 := { s1 with last_text := newT, doc := retagLast typed.length s1.doc }
      let remaining := g.drop typed.length
      if remaining = [] then { s2 with cleanup_next_char := true }
      else insertGhost false color remaining s2
    else resetDebounce { s1 with last_text := newT }
  else resetDebounce { s1 with last_text := newT }

/-- `_fire_request`: the debounce timer fired.  Returns the state and
whether a request was actually issued to the provider.  `hasClient` is
`_client is not None`; `res` is the provider outcome (`none` = the call
raised); `ss` is the `SingleSentence` setting. -/
def fireRequest (hasClient : Bool) (res : Option (List Char)) (ss : Bool)
    (s : CState) : CState × Bool :=
  let p := getContext s
  let sf := { s with timer_pending := false }
  if isBlank p then (sf, false)
  else if ¬ (sf.debounce_ctx = some p) then (sf, false)
  else if endsSentencePunct p then (sf, false)
  else if ¬ hasClient then (sf, false)
  else
    let s1 := { sf with request_context := p, querying := true, last_error := [] }
    match res with
    | none => ({ s1 with querying := false, last_error := "API error".data }, true)
    | some sugg =>
        let s2 := { s1 with querying := false, query_count := s1.query_count + 1 }
        if sugg = [] then (s2, true)
        else
          let sugg1 := if ss then truncateSentence sugg else sugg
          if sugg1 = [] then (s2, true)
          else ({ s2 with ui_queue := s2.ui_queue ++ [sugg1] }, true)

/-- One iteration of the `drain_queue` loop: pop the next bare suggestion
string, compare the current context against the single `_request_context`
field, and either discard it or install it as the new ghost.  `fr` / `fi`
say whether the internal `_remove_ghost` / `_insert_ghost` document
mutations raise (each catches its own exception, so the iteration always
runs to completion). -/
def drainOneF (fr fi : Bool) (color : Int) (s : CState) : CState :=
  match s.ui_queue with
  | [] => s
  | sugg :: rest =>
      let s1 := { s with ui_queue := rest }
      if s.request_context ≠ [] ∧ ¬ (s.request_context.isPrefixOf (getContext s) = true) then s1
      else
        let s2 := if 0 < s1.ghost_len then removeGhost fr false s1 else s1
        let s3 := { s2 with accepted_words := [], last_text := content s2.doc }
        insertGhost fi color sugg s3

/-- The failure-free drain iteration. -/
def drainOne (color : Int) (s : CState) : CState := drainOneF false false color s

/-- `dismiss_suggestion`. -/
def dismissSuggestion (s : CState) : CState :=
  if 0 < s.ghost_len then removeGhost false false s else s

/-- `accept_suggestion`. -/
def acceptSuggestion (s : CState) : CState :=
  if s.ghost_len = 0 then s else acceptGhost false s

/-- `keyPressed`: the XKeyHandler entry point.  Returns the state and the
boolean handed back to the host (`true` = the event is consumed).
`fail = true` models an exception inside the handler (caught by the outer
`except`, which returns `False`). -/
def keyPressed (fail : Bool) (key mods : Nat) (color : Int) (s : CState) :
    CState × Bool :=
  if fail then (s, false)
  else if ¬ s.enabled then (s, false)
  else if 0 < s.ghost_len then
    if key = 1027 ∧ Nat.land mods 2 ≠ 0 then (acceptGhostWord false color s, true)
    else if key = 1026 ∧ Nat.land mods 2 ≠ 0 then
      if s.accepted_words ≠ [] then (unacceptGhostWord false color s, true)
      else
        let s1 := removeGhost false false s
        ({ s1 with last_text := content s1.doc }, false)
    else if key = 1282 ∧ Nat.land mods 2 ≠ 0 then (acceptGhost false s, true)
    else if key = 1281 then
      let s1 := removeGhost false false s
      ({ s1 with last_text := content s1.doc }, true)
    else (s, false)
  else (s, false)

/-- `GoRightDispatch.dispatch`: cancel the debounce; accept the ghost if
one is active, otherwise forward to the original dispatch.  The returned
boolean records whether the default action was forwarded (`orig` = a
lower-level handler exists). -/
def goRightDispatch (orig : Bool) (s : CState) : CState × Bool :=
  let s0 := cancelDebounce s
  if 0 < s0.ghost_len then (acceptGhost false s0, false) else (s0, orig)

/-- `GoWordRightDispatch.dispatch`. -/
def goWordRightDispatch (orig : Bool) (color : Int) (s : CState) : CState × Bool :=
  let s0 := cancelDebounce s
  if 0 < s0.ghost_len then (acceptGhostWord false color s0, false) else (s0, orig)

/-- `GoWordLeftDispatch.dispatch`: un-accept the last word when the stack
is non-empty, otherwise dismiss the ghost and forward the default
navigation. -/
def goWordLeftDispatch (orig : Bool) (color : Int) (s : CState) : CState × Bool :=
  let s0 := cancelDebounce s
  if 0 < s0.ghost_len ∧ s0.accepted_words ≠ [] then
    (unacceptGhostWord false color s0, false)
  else if 0 < s0.ghost_len then (dismissSuggestion s0, orig)
  else (s0, orig)

/-- `NavDismissDispatch.dispatch`: dismiss any ghost, then forward. -/
def navDismissDispatch (orig : Bool) (s : CState) : CState × Bool :=
  let s0 := cancelDebounce s
  if 0 < s0.ghost_len then (dismissSuggestion s0, orig) else (s0, orig)

/-- The sidebar toggle (`on_toggle` in `SidebarPanel.py`): flip `enabled`
and dismiss the ghost when disabling. -/
def toggleEnabled (s : CState) : CState :=
  let s1 := { s with enabled := !s.enabled }
  if s1.enabled then s1 else dismissSuggestion s1

/-- One atomic transition of the controller: a document-modification
event, the debounce timer firing, one drain-loop iteration, a key event,
or one of the intercepted navigation dispatches.  Environment data (the
edited document text, the cursor colour, the provider outcome, the
settings involved) are constructor arguments. -/
inductive Step : CState → CState → Prop where
  | modGhost (s : CState) (nd : List SChar) (color : Int)
      (he : s.enabled = true) (hg : 0 < s.ghost_len) :
      Step s (handleModGhost color nd s)
  | modNoGhost (s : CState) (nd : List SChar)
      (he : s.enabled = true) (hg : s.ghost_len = 0) :
      Step s (resetDebounce { s with doc := nd })
  | fire (s : CState) (hasClient : Bool) (res : Option (List Char)) (ss : Bool)
      (ht : s.timer_pending = true) :
      Step s (fireRequest hasClient res ss s).1
  | drain (s : CState) (fr fi : Bool) (color : Int) :
      Step s (drainOneF fr fi color s)
  | key (s : CState) (fail : Bool) (k m : Nat) (color : Int) :
      Step s (keyPressed fail k m color s).1
  | goRight (s : CState) (orig : Bool) : Step s (goRightDispatch orig s).1
  | goWordRight (s : CState) (orig : Bool) (color : Int) :
      Step s (goWordRightDispatch orig color s).1
  | goWordLeft (s : CState) (orig : Bool) (color : Int) :
      Step s (goWordLeftDispatch orig color s).1
  | navDismiss (s : CState) (orig : Bool) : Step s (navDismissDispatch orig s).1
  | cancelDeb (s : CState) : Step s (cancelDebounce s)
  | acceptCmd (s : CState) : Step s (acceptSuggestion s)
  | dismissCmd (s : CState) : Step s (dismissSuggestion s)
  | toggleCmd (s : CState) : Step s (toggleEnabled s)
  | acceptFail (s : CState) : Step s (acceptGhost true s)
  | dismissFail (s : CState) (hg : 0 < s.ghost_len) :
      Step s (removeGhost true false s)
  | escapeDismissFail (s : CState) (he : s.enabled = true)
      (hg : 0 < s.ghost_len) :
      Step s { removeGhost true false s with last_text := content s.doc }
  | acceptWordFail (s : CState) (color : Int) (hg : 0 < s.ghost_len) :
      Step s (acceptGhostWord true color s)
  | unacceptWordFail (s : CState) (color : Int) (hg : 0 < s.ghost_len)
      (hs : s.accepted_words ≠ []) :
      Step s (unacceptGhostWord true color s)

/-- States reachable from a freshly registered handler on some document. -/
inductive Reachable : CState → Prop where
  | init (d0 : List SChar) (mc : Nat) : Reachable (initState d0 mc)
  | step {s t : CState} : Reachable s → Step s t → Reachable t

/-- The inductive invariant of the controller:
* `_ghost_len` always equals `len(_ghost_text)`;
* while a ghost is active the recorded prefix and the document prefix are
  non-empty, and the accepted words are strictly shorter than the
  document prefix;
* a queued completion implies a recorded request context.
A failed word insertion leaves the stack non-empty with no ghost, so the
stack-related facts hold only while a ghost is active. -/
def GoodState (s : CState) : Prop :=
  s.ghost_len = s.ghost_text.length
  ∧ (0 < s.ghost_len → s.last_text ≠ [])
  ∧ (0 < s.ghost_len → s.doc ≠ [])
  ∧ (0 < s.ghost_len → s.accepted_words ≠ [] →
      (s.accepted_words.flatten).length < s.doc.length)
  ∧ (s.ui_queue ≠ [] → s.request_context ≠ [])

lemma content_append (a b : List SChar) : content (a ++ b) = content a ++ content b :=
  List.map_append _ _ _

lemma content_aiMap (t : List Char) :
    content (t.map fun c => (c, CStyle.ai)) = t := by
  simp only [content, List.map_map]
  exact List.map_id _

lemma content_length (l : List SChar) : (content l).length = l.length :=
  List.length_map _ _

lemma content_eq_nil (l : List SChar) : content l = [] ↔ l = [] := by
  simp [content]

lemma content_retagLast (n : Nat) (l : List SChar) :
    content (retagLast n l) = content l := by
  have hf : (Prod.fst ∘ fun p : SChar => (p.1, CStyle.ai)) = Prod.fst := rfl
  simp only [content, retagLast, List.map_append, List.map_map, hf]
  rw [← List.map_append, List.take_append_drop]

lemma findWordBoundary_pos (l : List Char) (h : l ≠ []) :
    1 ≤ findWordBoundary l := by
  unfold findWordBoundary
  rw [if_neg h]
  by_cases h2 : l.dropWhile isSpTab = []
  · simp only [h2, if_pos rfl]
    exact List.length_pos.mpr h
  · simp only [if_neg h2]
    exact le_max_left _ _

lemma good_initState (d0 : List SChar) (mc : Nat) : GoodState (initState d0 mc) := by
  simp [GoodState, initState]

lemma good_resetDebounce {s : CState} (h : GoodState s) :
    GoodState (resetDebounce s) := by
  simpa [GoodState, resetDebounce] using h

lemma good_cancelDebounce {s : CState} (h : GoodState s) :
    GoodState (cancelDebounce s) := by
  simpa [GoodState, cancelDebounce] using h

lemma good_doc_update {s : CState} (h : GoodState s) (nd : List SChar)
    (hg : s.ghost_len = 0) : GoodState { s with doc := nd } := by
  obtain ⟨h1, h2, h3, h4, h5⟩ := h
  refine ⟨h1, ?_, ?_, ?_, h5⟩ <;>
    · intro hpos
      have hpos2 : 0 < s.ghost_len := hpos
      exact absurd hpos2 (by omega)

lemma good_removeGhost_clear {s : CState} (fail : Bool) (h : GoodState s) :
    GoodState (removeGhost fail false s) := by
  obtain ⟨h1, h2, h3, h4, h5⟩ := h
  unfold removeGhost
  split <;> exact ⟨by simp, by simp, by simp, by simp, h5⟩

/-- A state whose ghost is cleared, stack empty, and prefix facts known:
the result of any `_insert_ghost` call on it satisfies the invariant. -/
lemma good_insert_cleared {s3 : CState} (fi : Bool) (color : Int)
    (sugg : List Char) (hg : s3.ghost_len = 0) (hgt : s3.ghost_text = [])
    (hlast : s3.last_text ≠ []) (hdoc : s3.doc ≠ [])
    (hstack : s3.accepted_words = [])
    (h5 : s3.ui_queue ≠ [] → s3.request_context ≠ []) :
    GoodState (insertGhost fi color sugg s3) := by
  unfold insertGhost
  split_ifs with ht hf
  · exact ⟨by simp [hg, hgt], fun hpos => absurd (show 0 < s3.ghost_len from hpos)
        (by omega), fun hpos => absurd (show 0 < s3.ghost_len from hpos)
        (by omega), fun hpos => absurd (show 0 < s3.ghost_len from hpos)
        (by omega), h5⟩
  · exact ⟨by simp [hg, hgt], fun hpos => absurd (show 0 < s3.ghost_len from hpos)
        (by omega), fun hpos => absurd (show 0 < s3.ghost_len from hpos)
        (by omega), fun hpos => absurd (show 0 < s3.ghost_len from hpos)
        (by omega), h5⟩
  · exact ⟨rfl, fun _ => hlast, fun _ => hdoc,
      fun _ hcon => absurd hstack hcon, h5⟩

lemma good_acceptGhost {s : CState} (fail : Bool) (h : GoodState s) :
    GoodState (acceptGhost fail s) := by
  obtain ⟨h1, h2, h3, h4, h5⟩ := h
  unfold acceptGhost
  split
  · exact ⟨h1, h2, h3, h4, h5⟩
  · cases fail <;> exact ⟨by simp, by simp, by simp, by simp, h5⟩

/-- Shape of `_accept_ghost_word` on a proper split (the word does not
cover the whole ghost). -/
lemma acceptGhostWord_eq_split {s : CState} (color : Int)
    (hg : s.ghost_len ≠ 0) (h1 : s.ghost_len = s.ghost_text.length)
    (hwl : findWordBoundary s.ghost_text < s.ghost_len) :
    acceptGhostWord false color s =
      { s with
        doc := s.doc ++ (s.ghost_text.take (findWordBoundary s.ghost_text)).map
                 (fun c => (c, CStyle.ai)),
        ghost_text := s.ghost_text.drop (findWordBoundary s.ghost_text),
        ghost_len := (s.ghost_text.drop (findWordBoundary s.ghost_text)).length,
        ghost_anchor := true,
        saved_color := some color,
        accepted_words := s.accepted_words ++
          [s.ghost_text.take (findWordBoundary s.ghost_text)],
        last_text := content s.doc ++ s.ghost_text.take (findWordBoundary s.ghost_text),
        cleanup_next_char := true } := by
  have hrem : s.ghost_text.drop (findWordBoundary s.ghost_text) ≠ [] := by
    intro hcon
    have := List.length_drop (findWordBoundary s.ghost_text) s.ghost_text
    rw [hcon] at this
    simp at this
    omega
  unfold acceptGhostWord
  rw [if_neg hg, if_neg (not_le.mpr hwl)]
  simp only [removeGhost, insertGhost]
  rw [if_neg (show ¬(({ s with accepted_words := s.accepted_words ++
        [s.ghost_text.take (findWordBoundary s.ghost_text)] } : CState).ghost_len = 0)
      from hg)]
  simp only [Bool.false_eq_true, if_false, if_true]
  rw [if_neg hrem]

/-- Shape of `_unaccept_ghost_word` when the stack is non-empty and a ghost
is active. -/
lemma unacceptGhostWord_eq {s : CState} (color : Int)
    (hne : s.accepted_words ≠ []) (hg : s.ghost_len ≠ 0)
    (hgt : s.ghost_text ≠ []) :
    unacceptGhostWord false color s =
      { s with
        doc := dropRightL (s.accepted_words.getLastD []).length s.doc,
        ghost_text := s.accepted_words.getLastD [] ++ s.ghost_text,
        ghost_len := (s.accepted_words.getLastD [] ++ s.ghost_text).length,
        ghost_anchor := true,
        saved_color := some color,
        accepted_words := s.accepted_words.dropLast,
        last_text := content (dropRightL (s.accepted_words.getLastD []).length s.doc),
        cleanup_next_char := true } := by
  have hins : s.accepted_words.getLastD [] ++ s.ghost_text ≠ [] := by
    simp [hgt]
  unfold unacceptGhostWord
  rw [if_neg hne]
  simp only [removeGhost, insertGhost]
  rw [if_neg (show ¬(({ s with accepted_words := s.accepted_words.dropLast } :
        CState).ghost_len = 0) from hg)]
  simp only [Bool.false_eq_true, if_false, if_true]
  rw [if_neg hins]


lemma stack_decomp {α : Type} [Inhabited α] (L : List (List α)) (h : L ≠ []) :
    L = L.dropLast ++ [L.getLastD []] := by
  conv_lhs => rw [← List.dropLast_append_getLast h]
  congr 2
  rw [List.getLastD_eq_getLast?, List.getLast?_eq_getLast L h]
  rfl

lemma flatten_eq_dropLast {α : Type} [Inhabited α] (L : List (List α)) (h : L ≠ []) :
    L.flatten = L.dropLast.flatten ++ L.getLastD [] := by
  conv_lhs => rw [stack_decomp L h]
  simp

lemma take_ne_nil_of_pos {l : List Char} {n : Nat} (h1 : 1 ≤ n) (h2 : l ≠ []) :
    l.take n ≠ [] := by
  rw [Ne, List.take_eq_nil_iff]
  push_neg
  exact ⟨by omega, h2⟩

/-- Shape of `_accept_ghost_word` on a proper split whose word insertion
raises: the word stays pushed on the stack, the ghost is gone, and the
handler returns before re-inserting the remainder. -/
lemma acceptGhostWord_eq_split_fail {s : CState} (color : Int)
    (hg : s.ghost_len ≠ 0)
    (hwl : findWordBoundary s.ghost_text < s.ghost_len) :
    acceptGhostWord true color s =
      { s with ghost_text := [], ghost_len := 0, ghost_anchor := false,
               saved_color := none, cleanup_next_char := true,
               accepted_words := s.accepted_words ++
                 [s.ghost_text.take (findWordBoundary s.ghost_text)] } := by
  unfold acceptGhostWord
  rw [if_neg hg, if_neg (not_le.mpr hwl)]
  simp only [removeGhost]
  rw [if_neg (show ¬(({ s with accepted_words := s.accepted_words ++
        [s.ghost_text.take (findWordBoundary s.ghost_text)] } : CState).ghost_len
        = 0) from hg)]
  simp only [Bool.false_eq_true, if_false, if_true]

/-- Shape of `_unaccept_ghost_word` whose character deletion raises: the
word stays popped, the ghost is gone, and the handler returns early. -/
lemma unacceptGhostWord_eq_fail {s : CState} (color : Int)
    (hne : s.accepted_words ≠ []) (hg : s.ghost_len ≠ 0) :
    unacceptGhostWord true color s =
      { s with ghost_text := [], ghost_len := 0, ghost_anchor := false,
               saved_color := none, cleanup_next_char := true,
               accepted_words := s.accepted_words.dropLast } := by
  unfold unacceptGhostWord
  rw [if_neg hne]
  simp only [removeGhost]
  rw [if_neg (show ¬(({ s with accepted_words := s.accepted_words.dropLast } :
        CState).ghost_len = 0) from hg)]
  simp only [Bool.false_eq_true, if_false, if_true]

lemma good_acceptGhostWord {s : CState} (fail : Bool) (color : Int)
    (h : GoodState s) : GoodState (acceptGhostWord fail color s) := by
  obtain ⟨h1, h2, h3, h4, h5⟩ := h
  by_cases hg : s.ghost_len = 0
  · unfold acceptGhostWord
    rw [if_pos hg]
    exact ⟨h1, h2, h3, h4, h5⟩
  by_cases hwl : s.ghost_len ≤ findWordBoundary s.ghost_text
  · unfold acceptGhostWord
    rw [if_neg hg, if_pos hwl]
    exact good_acceptGhost fail ⟨h1, h2, h3, h4, h5⟩
  push_neg at hwl
  cases fail
  · rw [acceptGhostWord_eq_split color hg h1 hwl]
    have hgt : s.ghost_text ≠ [] := by
      intro hcon
      rw [hcon] at h1
      simp at h1
      exact hg h1
    have hwb := findWordBoundary_pos s.ghost_text hgt
    have htk : s.ghost_text.take (findWordBoundary s.ghost_text) ≠ [] :=
      take_ne_nil_of_pos hwb hgt
    have hdoc : s.doc ≠ [] := h3 (by omega)
    have hdlen : 0 < s.doc.length := List.length_pos.mpr hdoc
    refine ⟨rfl, ?_, ?_, ?_, h5⟩
    · intro _
      show content s.doc ++ _ ≠ []
      simp [htk]
    · intro _
      show s.doc ++ _ ≠ []
      intro hcon
      exact hdoc (List.append_eq_nil.mp hcon).1
    · intro _ _
      show (List.flatten (s.accepted_words ++ [_])).length < (s.doc ++ _).length
      rw [List.flatten_append, List.length_append, List.length_append,
          List.flatten_cons, List.flatten_nil, List.append_nil, List.length_map]
      have hbase : s.accepted_words.flatten.length < s.doc.length := by
        by_cases hsw : s.accepted_words = []
        · rw [hsw]; simpa using hdlen
        · exact h4 (by omega) hsw
      omega
  · rw [acceptGhostWord_eq_split_fail color hg hwl]
    refine ⟨by simp, ?_, ?_, ?_, h5⟩ <;>
      · intro hpos
        exact absurd (show (0 : Nat) < 0 from hpos) (by omega)

lemma good_unacceptGhostWord {s : CState} (fail : Bool) (color : Int)
    (hg0 : 0 < s.ghost_len) (h : GoodState s) :
    GoodState (unacceptGhostWord fail color s) := by
  obtain ⟨h1, h2, h3, h4, h5⟩ := h
  by_cases hne : s.accepted_words = []
  · unfold unacceptGhostWord
    rw [if_pos hne]
    exact ⟨h1, h2, h3, h4, h5⟩
  have hg : s.ghost_len ≠ 0 := by omega
  have hgt : s.ghost_text ≠ [] := by
    intro hcon
    rw [hcon] at h1
    simp at h1
    exact hg h1
  cases fail
  · rw [unacceptGhostWord_eq color hne hg hgt]
    have hflat := flatten_eq_dropLast s.accepted_words hne
    have hword_le : (s.accepted_words.getLastD []).length ≤
        s.accepted_words.flatten.length := by
      rw [hflat, List.length_append]
      omega
    have hlt := h4 hg0 hne
    have hdoc_len : (dropRightL (s.accepted_words.getLastD []).length s.doc).length
        = s.doc.length - (s.accepted_words.getLastD []).length := by
      simp [dropRightL]
    have hdoc_pos :
        0 < (dropRightL (s.accepted_words.getLastD []).length s.doc).length := by
      omega
    have hdoc_ne : dropRightL (s.accepted_words.getLastD []).length s.doc ≠ [] := by
      intro hcon
      rw [hcon] at hdoc_pos
      simp at hdoc_pos
    refine ⟨rfl, ?_, ?_, ?_, h5⟩
    · intro _
      show content (dropRightL _ s.doc) ≠ []
      rw [Ne, content_eq_nil]
      exact hdoc_ne
    · intro _
      exact hdoc_ne
    · intro _ hne2
      show (s.accepted_words.dropLast.flatten).length < _
      rw [hdoc_len]
      have : s.accepted_words.flatten.length =
          s.accepted_words.dropLast.flatten.length +
          (s.accepted_words.getLastD []).length := by
        rw [hflat, List.length_append]
      omega
  · rw [unacceptGhostWord_eq_fail color hne hg]
    refine ⟨by simp, ?_, ?_, ?_, h5⟩ <;>
      · intro hpos
        exact absurd (show (0 : Nat) < 0 from hpos) (by omega)

/-- The state `_handle_modification_with_ghost` reaches right after
removing the active ghost from the freshly edited document. -/
def modCleared (nd : List SChar) (s : CState) : CState :=
  { s with doc := nd, ghost_text := [], ghost_len := 0, ghost_anchor := false,
           saved_color := none, cleanup_next_char := true, accepted_words := [] }

/-- `_handle_modification_with_ghost`, early exit: the recorded or the new
prefix is empty — ghost dropped, debounce restarted, `_last_text` kept. -/
lemma handleModGhost_eq_early {s : CState} (color : Int) (nd : List SChar)
    (hg : s.ghost_len ≠ 0) (h : s.last_text = [] ∨ content nd = []) :
    handleModGhost color nd s = resetDebounce (modCleared nd s) := by
  unfold handleModGhost
  dsimp only
  rw [removeGhost, if_neg (show ¬(({ s with doc := nd, ghost_anchor := false } :
        CState).ghost_len = 0) from hg)]
  rw [if_pos h]
  rfl

/-- `_handle_modification_with_ghost`, divergent edit: the new prefix is
not a proper extension of the old one matching the ghost — ghost dropped,
`_last_text` updated, debounce restarted. -/
lemma handleModGhost_eq_divergent {s : CState} (color : Int) (nd : List SChar)
    (hg : s.ghost_len ≠ 0) (hold : s.last_text ≠ []) (hnew : content nd ≠ [])
    (hdiv : ¬(s.last_text.isPrefixOf (content nd) = true
      ∧ s.last_text.length < (content nd).length
      ∧ ((content nd).drop s.last_text.length).isPrefixOf s.ghost_text = true)) :
    handleModGhost color nd s =
      resetDebounce { modCleared nd s with last_text := content nd } := by
  unfold handleModGhost
  dsimp only
  rw [removeGhost, if_neg (show ¬(({ s with doc := nd, ghost_anchor := false } :
        CState).ghost_len = 0) from hg)]
  rw [if_neg (show ¬(s.last_text = [] ∨ content nd = []) from by tauto)]
  by_cases hc : s.last_text.isPrefixOf (content nd) = true
      ∧ s.last_text.length < (content nd).length
  · rw [if_pos hc]
    rw [if_neg (show ¬(((content nd).drop s.last_text.length).isPrefixOf
          s.ghost_text = true) from by tauto)]
    rfl
  · rw [if_neg hc]
    rfl

/-- `_handle_modification_with_ghost`, write-through with a remainder: the
typed characters are an exact proper prefix of the ghost — they are
retagged with the AI style and the remaining ghost is re-inserted. -/
lemma handleModGhost_eq_writeThrough {s : CState} (color : Int) (nd : List SChar)
    (hg : s.ghost_len ≠ 0) (hold : s.last_text ≠ []) (hnew : content nd ≠ [])
    (hpre : s.last_text.isPrefixOf (content nd) = true)
    (hlt : s.last_text.length < (content nd).length)
    (hmatch : ((content nd).drop s.last_text.length).isPrefixOf s.ghost_text = true)
    (hrem : s.ghost_text.drop ((content nd).drop s.last_text.length).length ≠ []) :
    handleModGhost color nd s =
      { s with
        doc := retagLast ((content nd).drop s.last_text.length).length nd,
        ghost_text := s.ghost_text.drop ((content nd).drop s.last_text.length).length,
        ghost_len := (s.ghost_text.drop
          ((content nd).drop s.last_text.length).length).length,
        ghost_anchor := true,
        saved_color := some color,
        accepted_words := [],
        last_text := content nd,
        cleanup_next_char := true } := by
  unfold handleModGhost
  dsimp only
  rw [removeGhost, if_neg (show ¬(({ s with doc := nd, ghost_anchor := false } :
        CState).ghost_len = 0) from hg)]
  rw [if_neg (show ¬(s.last_text = [] ∨ content nd = []) from by tauto)]
  rw [if_pos ⟨hpre, hlt⟩, if_pos hmatch]
  rw [insertGhost, if_neg hrem]
  simp only [Bool.false_eq_true, if_false]
  rw [if_neg hrem]

/-- `_handle_modification_with_ghost`, ghost fully consumed by typing:
state cleared and the cursor style reset. -/
lemma handleModGhost_eq_consumed {s : CState} (color : Int) (nd : List SChar)
    (hg : s.ghost_len ≠ 0) (hold : s.last_text ≠ []) (hnew : content nd ≠ [])
    (hpre : s.last_text.isPrefixOf (content nd) = true)
    (hlt : s.last_text.length < (content nd).length)
    (hmatch : ((content nd).drop s.last_text.length).isPrefixOf s.ghost_text = true)
    (hrem : s.ghost_text.drop ((content nd).drop s.last_text.length).length = []) :
    handleModGhost color nd s =
      { modCleared (retagLast ((content nd).drop s.last_text.length).length nd) s with
        last_text := content nd } := by
  unfold handleModGhost
  dsimp only
  rw [removeGhost, if_neg (show ¬(({ s with doc := nd, ghost_anchor := false } :
        CState).ghost_len = 0) from hg)]
  rw [if_neg (show ¬(s.last_text = [] ∨ content nd = []) from by tauto)]
  rw [if_pos ⟨hpre, hlt⟩, if_pos hmatch]
  rw [if_pos hrem]
  rfl

lemma good_modCleared {s : CState} (nd : List SChar)
    (h5 : s.ui_queue ≠ [] → s.request_context ≠ []) :
    GoodState (modCleared nd s) := by
  refine ⟨rfl, ?_, ?_, ?_, h5⟩ <;> simp [modCleared]

lemma good_handleModGhost {s : CState} (color : Int) (nd : List SChar)
    (h : GoodState s) (hg : 0 < s.ghost_len) :
    GoodState (handleModGhost color nd s) := by
  obtain ⟨h1, h2, h3, h4, h5⟩ := h
  have hg0 : s.ghost_len ≠ 0 := by omega
  have hold := h2 hg
  by_cases hnew : content nd = []
  · rw [handleModGhost_eq_early color nd hg0 (Or.inr hnew)]
    exact good_resetDebounce (good_modCleared nd h5)
  by_cases hc : s.last_text.isPrefixOf (content nd) = true
      ∧ s.last_text.length < (content nd).length
      ∧ ((content nd).drop s.last_text.length).isPrefixOf s.ghost_text = true
  · obtain ⟨hpre, hlt, hmatch⟩ := hc
    by_cases hrem : s.ghost_text.drop
        ((content nd).drop s.last_text.length).length = []
    · rw [handleModGhost_eq_consumed color nd hg0 hold hnew hpre hlt hmatch hrem]
      exact ⟨rfl, by simp [modCleared], by simp [modCleared],
             by simp [modCleared], h5⟩
    · rw [handleModGhost_eq_writeThrough color nd hg0 hold hnew hpre hlt hmatch hrem]
      refine ⟨rfl, ?_, ?_, ?_, h5⟩
      · intro _
        exact hnew
      · intro _
        show retagLast _ nd ≠ []
        intro hcon
        apply hnew
        rw [← content_retagLast ((content nd).drop s.last_text.length).length nd,
            hcon]
        rfl
      · intro _ hcon
        exact absurd rfl hcon
  · rw [handleModGhost_eq_divergent color nd hg0 hold hnew hc]
    refine good_resetDebounce ⟨?_, ?_, ?_, ?_, h5⟩ <;> simp [modCleared]

lemma isBlank_nil : isBlank [] = true := rfl

lemma good_fireRequest {s : CState} (hc : Bool) (res : Option (List Char))
    (ss : Bool) (h : GoodState s) : GoodState (fireRequest hc res ss s).1 := by
  obtain ⟨h1, h2, h3, h4, h5⟩ := h
  cases res with
  | none =>
      unfold fireRequest
      dsimp only
      split_ifs with hb hctx hp hcl
      all_goals
        first
        | exact ⟨h1, h2, h3, h4, h5⟩
        | exact ⟨h1, h2, h3, h4, fun _ hcon =>
            hb (by rw [show getContext s = [] from hcon]; rfl)⟩
  | some sugg =>
      unfold fireRequest
      dsimp only
      split_ifs with hb hctx hp hcl hs1 hs2
      all_goals
        first
        | exact ⟨h1, h2, h3, h4, h5⟩
        | exact ⟨h1, h2, h3, h4, fun _ hcon =>
            hb (by rw [show getContext s = [] from hcon]; rfl)⟩

/-- `drain_queue`, stale case: the current context does not start with the
recorded request context — the popped suggestion is simply dropped. -/
lemma drainOne_eq_discard {s : CState} {sugg : List Char} {rest : List (List Char)}
    (color : Int) (hq : s.ui_queue = sugg :: rest)
    (hrc : s.request_context ≠ [])
    (hpre : s.request_context.isPrefixOf (getContext s) = false) :
    drainOne color s = { s with ui_queue := rest } := by
  unfold drainOne drainOneF
  rw [hq]
  dsimp only
  rw [if_pos ⟨hrc, by rw [hpre]; exact Bool.false_ne_true⟩]

/-- `drain_queue`, fresh case: the staleness guard passes — any existing
ghost is removed, the stack cleared, `_last_text` recorded and the popped
suggestion inserted as the new ghost. -/
lemma drainOne_eq_apply {s : CState} {sugg : List Char} {rest : List (List Char)}
    (color : Int) (hq : s.ui_queue = sugg :: rest)
    (hpre : s.request_context.isPrefixOf (getContext s) = true) :
    drainOne color s = insertGhost false color sugg
      { s with ui_queue := rest,
               ghost_text := if 0 < s.ghost_len then [] else s.ghost_text,
               ghost_len := if 0 < s.ghost_len then 0 else s.ghost_len,
               ghost_anchor := if 0 < s.ghost_len then false else s.ghost_anchor,
               saved_color := if 0 < s.ghost_len then none else s.saved_color,
               cleanup_next_char := if 0 < s.ghost_len then true
                 else s.cleanup_next_char,
               accepted_words := [], last_text := content s.doc } := by
  unfold drainOne drainOneF
  rw [hq]
  dsimp only
  rw [if_neg (show ¬(s.request_context ≠ [] ∧
      ¬(s.request_context.isPrefixOf (getContext s) = true)) from by
    rw [hpre]; tauto)]
  by_cases hg : 0 < s.ghost_len
  · simp only [if_pos hg]
    congr 1
    unfold removeGhost
    rw [if_neg (fun hcon => absurd (show s.ghost_len = 0 from hcon) (by omega))]
    simp only [Bool.false_eq_true, if_false]
  · simp only [if_neg hg]

lemma good_drainOneF {s : CState} (fr fi : Bool) (color : Int)
    (h : GoodState s) : GoodState (drainOneF fr fi color s) := by
  obtain ⟨h1, h2, h3, h4, h5⟩ := h
  cases hq : s.ui_queue with
  | nil =>
      unfold drainOneF
      rw [hq]
      exact ⟨h1, h2, h3, h4, h5⟩
  | cons sugg rest =>
      have hrc : s.request_context ≠ [] := h5 (by rw [hq]; simp)
      unfold drainOneF
      rw [hq]
      dsimp only
      by_cases hstale : s.request_context ≠ [] ∧
          ¬ (s.request_context.isPrefixOf (getContext s) = true)
      · rw [if_pos hstale]
        exact ⟨h1, h2, h3, h4, fun _ => hrc⟩
      · rw [if_neg hstale]
        have hpre : s.request_context.isPrefixOf (getContext s) = true := by
          by_contra hcon
          exact hstale ⟨hrc, hcon⟩
        have hctx : getContext s ≠ [] := by
          intro hcon
          rw [hcon] at hpre
          rw [List.isPrefixOf_iff_prefix] at hpre
          exact hrc (List.prefix_nil.mp hpre)
        have hdoc : s.doc ≠ [] := by
          intro hcon
          apply hctx
          simp [getContext, takeRightL, content, hcon]
        have hcdoc : content s.doc ≠ [] := by
          rw [Ne, content_eq_nil]
          exact hdoc
        by_cases hgl : 0 < s.ghost_len
        · simp only [if_pos hgl]
          rw [removeGhost, if_neg (show ¬(({ s with ui_queue := rest } :
              CState).ghost_len = 0) from
            fun hcon => absurd (show s.ghost_len = 0 from hcon) (by omega))]
          exact good_insert_cleared fi color sugg rfl rfl hcdoc hdoc rfl
            (fun _ => hrc)
        · simp only [if_neg hgl]
          have hg0 : s.ghost_len = 0 := by omega
          have hgt0 : s.ghost_text = [] := by
            rw [hg0] at h1
            exact List.eq_nil_of_length_eq_zero h1.symm
          exact good_insert_cleared fi color sugg hg0 hgt0 hcdoc hdoc rfl
            (fun _ => hrc)

lemma good_dismiss_record {s : CState} (fail : Bool) (h : GoodState s)
    (lt2 : List Char) :
    GoodState { removeGhost fail false s with last_text := lt2 } := by
  unfold removeGhost
  split <;> exact ⟨by simp, by simp, by simp, by simp, h.2.2.2.2⟩

lemma good_dismissSuggestion {s : CState} (h : GoodState s) :
    GoodState (dismissSuggestion s) := by
  unfold dismissSuggestion
  split
  · exact good_removeGhost_clear false h
  · exact h

lemma good_acceptSuggestion {s : CState} (h : GoodState s) :
    GoodState (acceptSuggestion s) := by
  unfold acceptSuggestion
  split
  · exact h
  · exact good_acceptGhost false h

lemma good_enabled_update {s : CState} (h : GoodState s) (b : Bool) :
    GoodState { s with enabled := b } := by
  simpa [GoodState] using h

lemma good_toggleEnabled {s : CState} (h : GoodState s) :
    GoodState (toggleEnabled s) := by
  unfold toggleEnabled
  dsimp only
  split
  · exact good_enabled_update h _
  · exact good_dismissSuggestion (good_enabled_update h _)

lemma good_keyPressed {s : CState} (fail : Bool) (k m : Nat) (color : Int)
    (h : GoodState s) : GoodState (keyPressed fail k m color s).1 := by
  unfold keyPressed
  split_ifs with h1 h2 h3 h4 h5 h6 h7
  all_goals
    first
    | exact h
    | exact good_acceptGhostWord false color h
    | exact good_unacceptGhostWord false color (by assumption) h
    | exact good_acceptGhost false h
    | exact good_dismiss_record false h _

lemma good_goRightDispatch {s : CState} (orig : Bool) (h : GoodState s) :
    GoodState (goRightDispatch orig s).1 := by
  unfold goRightDispatch
  dsimp only
  split_ifs
  · exact good_acceptGhost false (good_cancelDebounce h)
  · exact good_cancelDebounce h

lemma good_goWordRightDispatch {s : CState} (orig : Bool) (color : Int)
    (h : GoodState s) : GoodState (goWordRightDispatch orig color s).1 := by
  unfold goWordRightDispatch
  dsimp only
  split_ifs
  · exact good_acceptGhostWord false color (good_cancelDebounce h)
  · exact good_cancelDebounce h

lemma good_goWordLeftDispatch {s : CState} (orig : Bool) (color : Int)
    (h : GoodState s) : GoodState (goWordLeftDispatch orig color s).1 := by
  unfold goWordLeftDispatch
  dsimp only
  split_ifs with hc1 hc2
  · exact good_unacceptGhostWord false color hc1.1 (good_cancelDebounce h)
  · exact good_dismissSuggestion (good_cancelDebounce h)
  · exact good_cancelDebounce h

lemma good_navDismissDispatch {s : CState} (orig : Bool) (h : GoodState s) :
    GoodState (navDismissDispatch orig s).1 := by
  unfold navDismissDispatch
  dsimp only
  split_ifs
  · exact good_dismissSuggestion (good_cancelDebounce h)
  · exact good_cancelDebounce h

/-- Every transition of the controller preserves the invariant. -/
lemma step_preserves {s t : CState} (h : GoodState s) (hst : Step s t) :
    GoodState t := by
  cases hst with
  | modGhost nd color he hg => exact good_handleModGhost color nd h hg
  | modNoGhost nd he hg => exact good_resetDebounce (good_doc_update h nd hg)
  | fire hasClient res ss ht => exact good_fireRequest hasClient res ss h
  | drain fr fi color => exact good_drainOneF fr fi color h
  | key fail k m color => exact good_keyPressed fail k m color h
  | goRight orig => exact good_goRightDispatch orig h
  | goWordRight orig color => exact good_goWordRightDispatch orig color h
  | goWordLeft orig color => exact good_goWordLeftDispatch orig color h
  | navDismiss orig => exact good_navDismissDispatch orig h
  | cancelDeb => exact good_cancelDebounce h
  | acceptCmd => exact good_acceptSuggestion h
  | dismissCmd => exact good_dismissSuggestion h
  | toggleCmd => exact good_toggleEnabled h
  | acceptFail => exact good_acceptGhost true h
  | dismissFail hg => exact good_removeGhost_clear true h
  | escapeDismissFail he hg => exact good_dismiss_record true h _
  | acceptWordFail color hg => exact good_acceptGhostWord true color h
  | unacceptWordFail color hg hs => exact good_unacceptGhostWord true color hg h

/-- Every reachable state satisfies the invariant. -/
lemma reachable_good {s : CState} (h : Reachable s) : GoodState s := by
  induction h with
  | init d0 mc => exact good_initState d0 mc
  | step _ hst ih => exact step_preserves ih hst

/-- A plain-styled document text. -/
def toSC (str : String) : List SChar :=
  str.data.map (fun c => (c, CStyle.default))

/-- Demo trace: freshly opened document `"He fell"`. -/
def demo0 : CState := initState (toSC "He fell") 500

/-- The user types a space: modification event, debounce restarted. -/
def demo1 : CState := resetDebounce { demo0 with doc := toSC "He fell " }

/-- The debounce fires and the provider returns `"down on the mat."`. -/
def demo2 : CState :=
  (fireRequest true (some "down on the mat.".data) false demo1).1

/-- The poll loop drains the queue and installs the ghost. -/
def demoGhost : CState := drainOne 0 demo2

lemma demoGhost_reachable : Reachable demoGhost :=
  Reachable.step
    (Reachable.step
      (Reachable.step (Reachable.init (toSC "He fell") 500)
        (Step.modNoGhost demo0 (toSC "He fell ") rfl rfl))
      (Step.fire demo1 true (some "down on the mat.".data) false rfl))
    (Step.drain demo2 false false 0)

/-- Same trace but the provider returns the single word `"mat."`. -/
def demoW2 : CState := (fireRequest true (some "mat.".data) false demo1).1

/-- Reachable state whose ghost `"mat."` is one word long. -/
def demoWord : CState := drainOne 0 demoW2

lemma demoWord_reachable : Reachable demoWord :=
  Reachable.step
    (Reachable.step
      (Reachable.step (Reachable.init (toSC "He fell") 500)
        (Step.modNoGhost demo0 (toSC "He fell ") rfl rfl))
      (Step.fire demo1 true (some "mat.".data) false rfl))
    (Step.drain demoW2 false false 0)

/-- `demoGhost` after one accept-word: stack `["down "]`, ghost
`"on the mat."`. -/
def demoStacked : CState := acceptGhostWord false 0 demoGhost

/-- C6: `_find_word_boundary` is a pure function that skips leading
whitespace, consumes the word body, a following punctuation run and one
trailing space (that staging is the definition of `findWordBoundary`,
transcribed from the source); it returns at least 1 on every non-empty
input, the full length 0 on the empty input, and 5 on
`"down on the mat."` (the length of `"down "`). -/
theorem C6_wordBoundary :
    findWordBoundary [] = 0
    ∧ (∀ l : List Char, l ≠ [] → 1 ≤ findWordBoundary l)
    ∧ findWordBoundary "down on the mat.".data = 5 :=
  ⟨rfl, fun l hl => findWordBoundary_pos l hl, by decide⟩

theorem C6_wordBoundary_witness : 1 ≤ findWordBoundary "x".data :=
  C6_wordBoundary.2.1 "x".data (by decide)

/-- `demoGhost` after an `_accept_ghost_word` whose word insertion raised:
the word `"down "` stays pushed on `_accepted_words` while the ghost
fields were already cleared, leaving `_ghost_len == 0` with a non-empty
stack. -/
def c3failState : CState := acceptGhostWord true 0 demoGhost

lemma c3failState_reachable : Reachable c3failState :=
  Reachable.step demoGhost_reachable
    (Step.acceptWordFail demoGhost 0 (by decide))

/-- C3, counterexample: the claimed equivalence `_ghost_len == 0 ⇔
acceptedWords == []` fails on reachable states in both directions.  Right
after a fresh suggestion is applied (`demoGhost`) the ghost is non-empty
with an empty stack; and when the word insertion inside
`_accept_ghost_word` raises (`c3failState`) the handler returns early
with `_ghost_len == 0` and the word still on the stack. -/
theorem C3_counterexample :
    (Reachable demoGhost
      ∧ ¬(demoGhost.ghost_len = 0 ↔ demoGhost.accepted_words = []))
    ∧ (Reachable c3failState
      ∧ c3failState.ghost_len = 0 ∧ c3failState.accepted_words ≠ []) :=
  ⟨⟨demoGhost_reachable, by decide⟩,
   ⟨c3failState_reachable, by decide, by decide⟩⟩

/-- C3, amended: the part of the claimed invariant that does hold of every
reachable state — document-mutation failures included — is
`_ghost_len == len(_ghost_text)`; neither direction of the stack
equivalence is invariant (see the counterexample). -/
theorem C3_invariant :
    ∀ s : CState, Reachable s → s.ghost_len = s.ghost_text.length := by
  intro s h
  exact (reachable_good h).1

theorem C3_invariant_witness :
    demoGhost.ghost_len = demoGhost.ghost_text.length :=
  C3_invariant demoGhost demoGhost_reachable

/-- C4, counterexample: when the segmenter's split point covers the whole
ghost (`"mat."`), `_accept_ghost_word` degrades to a full accept, clearing
the stack, and the following `_unaccept_ghost_word` is a no-op — neither
the document text nor the ghost text is restored at the reachable state
`demoWord`. -/
theorem C4_counterexample :
    Reachable demoWord
    ∧ findWordBoundary demoWord.ghost_text = demoWord.ghost_len
    ∧ content (unacceptGhostWord false 0 (acceptGhostWord false 0 demoWord)).doc
        ≠ content demoWord.doc
    ∧ (unacceptGhostWord false 0 (acceptGhostWord false 0 demoWord)).ghost_text
        ≠ demoWord.ghost_text :=
  ⟨demoWord_reachable, by decide, by decide, by decide⟩

/-- C4, amended: accept-word followed immediately by un-accept-word
restores the document and the ghost text whenever the word-boundary split
is proper (shorter than the ghost); when it covers the whole ghost,
accept-word behaves as accept-all and the round trip fails (see the
counterexample). -/
theorem C4_roundtrip :
    ∀ (s : CState) (c1 c2 : Int),
      s.ghost_len = s.ghost_text.length →
      findWordBoundary s.ghost_text < s.ghost_len →
      (unacceptGhostWord false c2 (acceptGhostWord false c1 s)).doc = s.doc
      ∧ (unacceptGhostWord false c2 (acceptGhostWord false c1 s)).ghost_text
          = s.ghost_text
      ∧ (unacceptGhostWord false c2 (acceptGhostWord false c1 s)).ghost_len
          = s.ghost_len := by
  intro s c1 c2 h1 hwl
  have hg : s.ghost_len ≠ 0 := by omega
  rw [acceptGhostWord_eq_split c1 hg h1 hwl]
  set wl := findWordBoundary s.ghost_text with hwldef
  set accepted := s.ghost_text.take wl with hacc
  set remaining := s.ghost_text.drop wl with hrem
  have hrem_ne : remaining ≠ [] := by
    rw [hrem, Ne, List.drop_eq_nil_iff]
    omega
  have hlen_ne : remaining.length ≠ 0 := by
    intro hcon
    exact hrem_ne (List.length_eq_zero.mp hcon)
  rw [unacceptGhostWord_eq c2 (by simp) (by exact hlen_ne) (by exact hrem_ne)]
  dsimp only
  rw [List.getLastD_concat]
  have hdoc : dropRightL accepted.length
      (s.doc ++ accepted.map fun c => (c, CStyle.ai)) = s.doc := by
    unfold dropRightL
    rw [List.length_append, List.length_map]
    have : s.doc.length + accepted.length - accepted.length = s.doc.length := by
      omega
    rw [this]
    exact List.take_left s.doc _
  refine ⟨hdoc, ?_, ?_⟩
  · rw [hacc, hrem]
    exact List.take_append_drop wl s.ghost_text
  · rw [List.length_append, hacc, hrem, List.length_take, List.length_drop, h1]
    have := List.length_pos.mpr (show s.ghost_text ≠ [] from by
      intro hcon
      rw [hcon] at h1
      simp at h1
      exact hg h1)
    omega

theorem C4_roundtrip_witness :
    demoGhost.ghost_len = demoGhost.ghost_text.length
    ∧ findWordBoundary demoGhost.ghost_text < demoGhost.ghost_len
    ∧ ((unacceptGhostWord false 0 (acceptGhostWord false 0 demoGhost)).doc
          = demoGhost.doc
      ∧ (unacceptGhostWord false 0 (acceptGhostWord false 0 demoGhost)).ghost_text
          = demoGhost.ghost_text
      ∧ (unacceptGhostWord false 0 (acceptGhostWord false 0 demoGhost)).ghost_len
          = demoGhost.ghost_len) :=
  ⟨by decide, by decide, C4_roundtrip demoGhost 0 0 (by decide) (by decide)⟩

/-- Base state used by the C8 counterexample. -/
def c8base : CState := initState (toSC "x") 500

/-- C8, counterexample: an exception inside `_insert_ghost` (raised by
`insertString`, after the current colour was captured) leaves
`_saved_color` set instead of cleared, so the claim that ghost text,
length, anchor cursor *and saved color* are all cleared regardless of the
mutation outcome is false for the insertion path. -/
theorem C8_counterexample :
    (insertGhost true 7 "ab".data c8base).ghost_text = []
    ∧ (insertGhost true 7 "ab".data c8base).saved_color = some 7
    ∧ (insertGhost true 7 "ab".data c8base).saved_color ≠ none := by
  refine ⟨by decide, by decide, by decide⟩

/-- C8, amended: exceptions during document mutation never escape (every
embedded operation is total); for removal and full acceptance the ghost
text, length, anchor, saved colour and (being accept/dismiss paths) the
acceptedWords stack are cleared in the `finally` arm regardless of the
mutation outcome; a failed insertion leaves the ghost fields at their
prior values (empty in every call context, because insertion is always
preceded by removal) but leaves the freshly captured saved colour set. -/
theorem C8_failure_reset :
    ∀ (s : CState) (fail : Bool),
      (0 < s.ghost_len →
        ((removeGhost fail false s).ghost_text = []
          ∧ (removeGhost fail false s).ghost_len = 0
          ∧ (removeGhost fail false s).ghost_anchor = false
          ∧ (removeGhost fail false s).saved_color = none
          ∧ (removeGhost fail false s).accepted_words = [])
        ∧ ((acceptGhost fail s).ghost_text = []
          ∧ (acceptGhost fail s).ghost_len = 0
          ∧ (acceptGhost fail s).ghost_anchor = false
          ∧ (acceptGhost fail s).saved_color = none
          ∧ (acceptGhost fail s).accepted_words = []))
      ∧ (∀ (color : Int) (t : List Char), t ≠ [] →
          (insertGhost true color t s).ghost_text = s.ghost_text
          ∧ (insertGhost true color t s).ghost_len = s.ghost_len
          ∧ (insertGhost true color t s).ghost_anchor = s.ghost_anchor
          ∧ (insertGhost true color t s).saved_color = some color
          ∧ (insertGhost true color t s).accepted_words = s.accepted_words) := by
  intro s fail
  constructor
  · intro hg
    constructor
    · unfold removeGhost
      rw [if_neg (show ¬s.ghost_len = 0 by omega)]
      exact ⟨rfl, rfl, rfl, rfl, by simp⟩
    · unfold acceptGhost
      rw [if_neg (show ¬s.ghost_len = 0 by omega)]
      cases fail <;> exact ⟨rfl, rfl, rfl, rfl, rfl⟩
  · intro color t ht
    unfold insertGhost
    rw [if_neg ht]
    exact ⟨rfl, rfl, rfl, rfl, rfl⟩

theorem C8_failure_reset_witness :
    0 < demoGhost.ghost_len
    ∧ ((removeGhost true false demoGhost).ghost_text = []
        ∧ (removeGhost true false demoGhost).ghost_len = 0
        ∧ (removeGhost true false demoGhost).ghost_anchor = false
        ∧ (removeGhost true false demoGhost).saved_color = none
        ∧ (removeGhost true false demoGhost).accepted_words = [])
    ∧ ((insertGhost true 5 "ab".data demoGhost).saved_color = some 5) :=
  ⟨by decide, ((C8_failure_reset demoGhost true).1 (by decide)).1,
    ((C8_failure_reset demoGhost true).2 5 "ab".data (by decide)).2.2.2.1⟩

/-- Scenario state for C5: live prefix `"The dog sat"`, queued completion
from snapshot prefix `"The cat sat"`. -/
def c5stale : CState :=
  { initState (toSC "The dog sat") 500 with
    request_context := "The cat sat".data,
    ui_queue := [" on the mat.".data] }

/-- Scenario state for C5: live prefix `"The cat sat on the mat"`, queued
completion from snapshot prefix `"The cat sat"`. -/
def c5fresh : CState :=
  { initState (toSC "The cat sat on the mat") 500 with
    request_context := "The cat sat".data,
    ui_queue := [" purring.".data] }

/-- C5: a dequeued completion is applied exactly when the live prefix
starts with the recorded snapshot prefix; on apply the old ghost is gone,
the stack cleared, `_last_text` recorded and the completion installed as
the new ghost; on a mismatch the item is dropped unchanged.  In
particular, a completion from snapshot `"The cat sat"` is discarded at
live prefix `"The dog sat"` and applied at `"The cat sat on the mat"`. -/
theorem C5_drain_staleness :
    (∀ (s : CState) (sugg : List Char) (rest : List (List Char)) (color : Int),
      s.ui_queue = sugg :: rest →
      s.ghost_len = s.ghost_text.length →
      ((s.request_context.isPrefixOf (getContext s) = true →
          (drainOne color s).ghost_text = sugg
          ∧ (drainOne color s).ghost_len = sugg.length
          ∧ (drainOne color s).accepted_words = []
          ∧ (drainOne color s).ui_queue = rest
          ∧ (drainOne color s).last_text = content s.doc)
        ∧ (s.request_context.isPrefixOf (getContext s) = false →
            drainOne color s = { s with ui_queue := rest })))
    ∧ ((drainOne 0 c5stale).ghost_len = 0
        ∧ (drainOne 0 c5stale).ui_queue = [])
    ∧ ((drainOne 0 c5fresh).ghost_text = " purring.".data
        ∧ (drainOne 0 c5fresh).ui_queue = []) := by
  refine ⟨?_, ⟨by decide, by decide⟩, ⟨by decide, by decide⟩⟩
  intro s sugg rest color hq hlen
  constructor
  · intro hpre
    rw [drainOne_eq_apply color hq hpre]
    by_cases ht : sugg = []
    · rw [insertGhost, if_pos ht]
      subst ht
      by_cases hg : 0 < s.ghost_len
      · rw [if_pos hg, if_pos hg]
        refine ⟨?_, ?_, ?_, ?_, ?_⟩ <;> trivial
      · rw [if_neg hg, if_neg hg]
        have hg0 : s.ghost_len = 0 := by omega
        have hgt0 : s.ghost_text = [] := by
          rw [hg0] at hlen
          exact (List.length_eq_zero.mp hlen.symm)
        refine ⟨hgt0, by simp [hg0], ?_, ?_, ?_⟩ <;> trivial
    · rw [insertGhost, if_neg ht]
      simp only [Bool.false_eq_true, if_false]
      refine ⟨?_, ?_, ?_, ?_, ?_⟩ <;> trivial
  · intro hpre
    have hrc : s.request_context ≠ [] := by
      intro hcon
      rw [hcon] at hpre
      have htr : List.isPrefixOf ([] : List Char) (getContext s) = true := by
        simp [List.isPrefixOf]
      rw [htr] at hpre
      cases hpre
    exact drainOne_eq_discard color hq hrc hpre

theorem C5_drain_staleness_witness :
    c5fresh.ui_queue = " purring.".data :: []
    ∧ c5fresh.ghost_len = c5fresh.ghost_text.length
    ∧ c5fresh.request_context.isPrefixOf (getContext c5fresh) = true
    ∧ (drainOne 0 c5fresh).ghost_text = " purring.".data
    ∧ (drainOne 0 c5fresh).accepted_words = [] :=
  ⟨rfl, by decide, by decide,
    ((C5_drain_staleness.1 c5fresh (" purring.".data) [] 0 rfl (by decide)).1
      (by decide)).1,
    ((C5_drain_staleness.1 c5fresh (" purring.".data) [] 0 rfl (by decide)).1
      (by decide)).2.2.1⟩

lemma truncateSentence_ne_nil {l : List Char} (h : l ≠ []) :
    truncateSentence l ≠ [] := by
  cases l with
  | nil => exact absurd rfl h
  | cons c rest =>
      unfold truncateSentence
      split_ifs <;> simp

/-- First request of the C2 trace: fired at prefix `"a"`. -/
def c2a : CState := resetDebounce (initState (toSC "a") 500)

/-- ... its result `"pple pie"` is queued, `_request_context = "a"`. -/
def c2b : CState := (fireRequest true (some "pple pie".data) false c2a).1

/-- The user types `"b"`; a second debounce is set at prefix `"ab"`. -/
def c2c : CState := resetDebounce { c2b with doc := toSC "ab" }

/-- Second request fires; its result `"out"` is queued behind the first,
and `_request_context` is overwritten with `"ab"`. -/
def c2d : CState := (fireRequest true (some "out".data) false c2c).1

/-- The user revises the text to `"ac"` before the queue is drained. -/
def c2e : CState := resetDebounce { c2d with doc := toSC "ac" }

/-- C2, counterexample: completions are queued as bare strings with no
per-item RequestContext (the queue holds exactly the two result strings),
and the drain compares the first queued result against the *latest*
`_request_context` (`"ab"`): at live prefix `"ac"` the first result is
discarded even though the prefix of the request that produced it (`"a"`)
still prefixes the live text — the opposite of what the claim requires. -/
theorem C2_counterexample :
    c2d.ui_queue = ["pple pie".data, "out".data]
    ∧ c2d.request_context = "ab".data
    ∧ "a".data.isPrefixOf (getContext c2e) = true
    ∧ (drainOne 0 c2e).ghost_len = 0
    ∧ (drainOne 0 c2e).ghost_text = []
    ∧ (drainOne 0 c2e).ui_queue = ["out".data] := by
  refine ⟨by decide, by decide, by decide, by decide, by decide, by decide⟩

/-- C2, amended: a successful fetch pushes the (optionally truncated)
result onto the queue as a bare string and records the request's prefix in
the single `_request_context` field; when the queue is drained each
dequeued item is checked against that most recent `_request_context`, not
against a context of its own. -/
theorem C2_queue_untagged :
    (∀ (s : CState) (sugg : List Char) (ss : Bool),
      isBlank (getContext s) = false →
      s.debounce_ctx = some (getContext s) →
      endsSentencePunct (getContext s) = false →
      sugg ≠ [] →
      (fireRequest true (some sugg) ss s).1.ui_queue
          = s.ui_queue ++ [if ss then truncateSentence sugg else sugg]
        ∧ (fireRequest true (some sugg) ss s).1.request_context = getContext s
        ∧ (fireRequest true (some sugg) ss s).1.query_count = s.query_count + 1)
    ∧ (∀ (s : CState) (sugg : List Char) (rest : List (List Char)) (color : Int),
        s.ui_queue = sugg :: rest →
        ((s.request_context.isPrefixOf (getContext s) = false →
            drainOne color s = { s with ui_queue := rest })
          ∧ (s.request_context.isPrefixOf (getContext s) = true → sugg ≠ [] →
              (drainOne color s).ghost_text = sugg
              ∧ (drainOne color s).ui_queue = rest))) := by
  constructor
  · intro s sugg ss hb hctx hp hsugg
    have hs1 : (if ss then truncateSentence sugg else sugg) ≠ [] := by
      cases ss
      · simpa using hsugg
      · simpa using truncateSentence_ne_nil hsugg
    unfold fireRequest
    dsimp only
    rw [if_neg (by rw [hb]; exact Bool.false_ne_true), if_neg (by rw [hctx]; simp),
        if_neg (by rw [hp]; exact Bool.false_ne_true), if_neg (by simp)]
    rw [if_neg hsugg]
    cases ss
    · rw [if_neg (by simpa using hsugg)]
      exact ⟨rfl, rfl, rfl⟩
    · rw [if_neg (by simpa using truncateSentence_ne_nil hsugg)]
      exact ⟨rfl, rfl, rfl⟩
  · intro s sugg rest color hq
    constructor
    · intro hpre
      have hrc : s.request_context ≠ [] := by
        intro hcon
        rw [hcon] at hpre
        have htr : List.isPrefixOf ([] : List Char) (getContext s) = true := by
          simp [List.isPrefixOf]
        rw [htr] at hpre
        cases hpre
      exact drainOne_eq_discard color hq hrc hpre
    · intro hpre hsugg
      rw [drainOne_eq_apply color hq hpre]
      rw [insertGhost, if_neg hsugg]
      simp only [Bool.false_eq_true, if_false]
      refine ⟨?_, ?_⟩ <;> trivial

theorem C2_queue_untagged_witness :
    ((fireRequest true (some "pple pie".data) false c2a).1.ui_queue
        = c2a.ui_queue
          ++ [if false then truncateSentence "pple pie".data
              else "pple pie".data])
    ∧ drainOne 0 c2e = { c2e with ui_queue := ["out".data] } :=
  ⟨(C2_queue_untagged.1 c2a "pple pie".data false (by decide) (by decide)
      (by decide) (by decide)).1,
    (C2_queue_untagged.2 c2e "pple pie".data ["out".data] 0 (by decide)).1
      (by decide)⟩

/-- C9: while a ghost is active, the intercepted word-left dispatch
un-accepts the most recent word and suppresses the default navigation when
the acceptedWords stack is non-empty (the word leaves the document, is
prepended to the ghost, and the stack pops); with an empty stack it
dismisses the ghost and forwards the command to the original dispatch
(`r.2 = orig`: the default navigation runs exactly when a lower-level
handler exists, and runs unmodified). -/
theorem C9_goWordLeft :
    ∀ (s : CState) (orig : Bool) (color : Int),
      s.ghost_len = s.ghost_text.length → 0 < s.ghost_len →
      ((s.accepted_words ≠ [] →
          (goWordLeftDispatch orig color s).2 = false
          ∧ (goWordLeftDispatch orig color s).1.accepted_words
              = s.accepted_words.dropLast
          ∧ (goWordLeftDispatch orig color s).1.ghost_text
              = s.accepted_words.getLastD [] ++ s.ghost_text
          ∧ (goWordLeftDispatch orig color s).1.doc
              = dropRightL (s.accepted_words.getLastD []).length s.doc)
        ∧ (s.accepted_words = [] →
            (goWordLeftDispatch orig color s).2 = orig
            ∧ (goWordLeftDispatch orig color s).1.ghost_text = []
            ∧ (goWordLeftDispatch orig color s).1.ghost_len = 0)) := by
  intro s orig color hlen hg
  have hgt : s.ghost_text ≠ [] := by
    intro hcon
    rw [hcon] at hlen
    simp at hlen
    omega
  constructor
  · intro hne
    unfold goWordLeftDispatch cancelDebounce
    dsimp only
    rw [if_pos (show (0 : Nat) < s.ghost_len ∧ s.accepted_words ≠ [] from
      ⟨hg, hne⟩)]
    rw [@unacceptGhostWord_eq { s with timer_pending := false } color hne
      (fun hcon => absurd (show s.ghost_len = 0 from hcon) (by omega)) hgt]
    exact ⟨rfl, rfl, rfl, rfl⟩
  · intro hempty
    unfold goWordLeftDispatch cancelDebounce
    dsimp only
    rw [if_neg (show ¬((0 : Nat) < s.ghost_len ∧ s.accepted_words ≠ []) from by
      simp [hempty])]
    rw [if_pos hg]
    unfold dismissSuggestion
    rw [if_pos hg]
    unfold removeGhost
    rw [if_neg (fun hcon => absurd (show s.ghost_len = 0 from hcon) (by omega))]
    exact ⟨rfl, rfl, rfl⟩

theorem C9_goWordLeft_witness :
    demoStacked.ghost_len = demoStacked.ghost_text.length
    ∧ 0 < demoStacked.ghost_len
    ∧ demoStacked.accepted_words ≠ []
    ∧ ((goWordLeftDispatch true 0 demoStacked).2 = false
        ∧ (goWordLeftDispatch true 0 demoStacked).1.accepted_words
            = demoStacked.accepted_words.dropLast
        ∧ (goWordLeftDispatch true 0 demoStacked).1.ghost_text
            = demoStacked.accepted_words.getLastD [] ++ demoStacked.ghost_text
        ∧ (goWordLeftDispatch true 0 demoStacked).1.doc
            = dropRightL (demoStacked.accepted_words.getLastD []).length
                demoStacked.doc) :=
  ⟨by decide, by decide, by decide,
    (C9_goWordLeft demoStacked true 0 (by decide) (by decide)).1 (by decide)⟩

/-- C10: `keyPressed` consumes an event (returns `True`) exactly when no
internal exception occurred, the handler is enabled, a ghost is active and
the key is one of the handled shortcuts: Ctrl+code 1027 (accept word),
Ctrl+code 1026 with a non-empty stack (un-accept word), Ctrl+code 1282
(accept all) or code 1281 (Escape dismiss); in every other situation —
disabled, no ghost, unhandled key, Ctrl+1026 with an empty stack, or an
exception — it returns `False` and ordinary typing and navigation are
never swallowed. -/
theorem C10_keyPressed_consumes :
    ∀ (fail : Bool) (k m : Nat) (color : Int) (s : CState),
      (keyPressed fail k m color s).2 = true ↔
        (fail = false ∧ s.enabled = true ∧ 0 < s.ghost_len ∧
          ((k = 1027 ∧ Nat.land m 2 ≠ 0)
            ∨ (k = 1026 ∧ Nat.land m 2 ≠ 0 ∧ s.accepted_words ≠ [])
            ∨ (k = 1282 ∧ Nat.land m 2 ≠ 0)
            ∨ k = 1281)) := by
  intro fail k m color s
  unfold keyPressed
  split_ifs with h1 h2 h3 h4 h5 h6 h7 h8 <;> simp_all

/-- C7: when the debounce timer fires, a request is issued if and only if
a provider is configured, the bounded prefix is not empty/whitespace-only,
the live prefix still equals the snapshot stored when the timer was set,
and the prefix does not end in terminal sentence punctuation (the prefix
is the text before the cursor, so punctuation followed by more text is
never its last character).  On a skip nothing changes except the timer
slot being consumed — in particular `_querying` keeps its value — and on
an issue the request's prefix is recorded in `_request_context` (the
embedding folds the whole fetch into one step; `_querying` is set while
the provider call is in flight and reset when it returns). -/
theorem C7_fire_skip_conditions :
    ∀ (s : CState) (hasClient : Bool) (res : Option (List Char)) (ss : Bool),
      ((fireRequest hasClient res ss s).2 = true ↔
        (hasClient = true ∧ isBlank (getContext s) = false
          ∧ s.debounce_ctx = some (getContext s)
          ∧ endsSentencePunct (getContext s) = false))
      ∧ ((fireRequest hasClient res ss s).2 = false →
          (fireRequest hasClient res ss s).1 = { s with timer_pending := false })
      ∧ ((fireRequest hasClient res ss s).2 = true →
          (fireRequest hasClient res ss s).1.request_context = getContext s) := by
  intro s hasClient res ss
  cases res with
  | none =>
      unfold fireRequest
      dsimp only
      split_ifs with hb hctx hp hcl <;>
        refine ⟨?_, ?_, ?_⟩ <;> simp_all
  | some sugg =>
      unfold fireRequest
      dsimp only
      split_ifs with hb hctx hp hcl hs1 hs2 <;>
        refine ⟨?_, ?_, ?_⟩ <;> simp_all

theorem C7_fire_skip_conditions_witness :
    (fireRequest true (some "pple pie".data) false c2a).1.request_context
        = getContext c2a
    ∧ (fireRequest false (some "pple pie".data) false c2a).1
        = { c2a with timer_pending := false } :=
  ⟨(C7_fire_skip_conditions c2a true (some "pple pie".data) false).2.2
      (by decide),
    (C7_fire_skip_conditions c2a false (some "pple pie".data) false).2.1
      (by decide)⟩

/-- C1: for a document-modification event arriving with a ghost active
(events injected by the controller itself are filtered before
`_handle_modification_with_ghost` runs): when the new prefix strictly
extends the recorded prefix and the added characters are an exact prefix
of the ghost, the typed characters are retagged with the AI style
(`doc = retagLast …`), the remaining ghost characters are re-inserted as
the new ghost, the new prefix is recorded, and — when the ghost is fully
consumed — ghost state is cleared and the cursor style reset; otherwise
the ghost is dropped and a fresh debounce cycle is started whose snapshot
is the new prefix.  The hypothesis `Reachable s` supplies the invariant
that the recorded prefix is non-empty while a ghost is active. -/
theorem C1_modification_with_ghost :
    ∀ s : CState, Reachable s → 0 < s.ghost_len →
    ∀ (nd : List SChar) (color : Int),
      ((s.last_text.isPrefixOf (content nd) = true
          ∧ s.last_text.length < (content nd).length
          ∧ ((content nd).drop s.last_text.length).isPrefixOf s.ghost_text
              = true) →
        (handleModGhost color nd s).doc
            = retagLast ((content nd).drop s.last_text.length).length nd
        ∧ (handleModGhost color nd s).ghost_text
            = s.ghost_text.drop ((content nd).drop s.last_text.length).length
        ∧ (handleModGhost color nd s).ghost_len
            = (handleModGhost color nd s).ghost_text.length
        ∧ (handleModGhost color nd s).accepted_words = []
        ∧ (handleModGhost color nd s).last_text = content nd
        ∧ (s.ghost_text.drop ((content nd).drop s.last_text.length).length = []
            → (handleModGhost color nd s).ghost_len = 0
              ∧ (handleModGhost color nd s).cleanup_next_char = true))
      ∧ (¬(s.last_text.isPrefixOf (content nd) = true
            ∧ s.last_text.length < (content nd).length
            ∧ ((content nd).drop s.last_text.length).isPrefixOf s.ghost_text
                = true) →
          (handleModGhost color nd s).ghost_text = []
          ∧ (handleModGhost color nd s).ghost_len = 0
          ∧ (handleModGhost color nd s).timer_pending = true
          ∧ (handleModGhost color nd s).debounce_ctx
              = some (takeRightL s.max_context_chars (content nd))) := by
  intro s hre hg nd color
  have hgood := reachable_good hre
  have hold : s.last_text ≠ [] := hgood.2.1 hg
  have hg0 : s.ghost_len ≠ 0 := by omega
  constructor
  · rintro ⟨hpre, hlt, hmatch⟩
    have hnew : content nd ≠ [] := by
      intro hcon
      rw [hcon] at hlt
      simp at hlt
    by_cases hrem :
        s.ghost_text.drop ((content nd).drop s.last_text.length).length = []
    · rw [handleModGhost_eq_consumed color nd hg0 hold hnew hpre hlt hmatch hrem]
      exact ⟨rfl, hrem.symm, rfl, rfl, rfl, fun _ => ⟨rfl, rfl⟩⟩
    · rw [handleModGhost_eq_writeThrough color nd hg0 hold hnew hpre hlt hmatch
        hrem]
      exact ⟨rfl, rfl, rfl, rfl, rfl, fun hcon => absurd hcon hrem⟩
  · intro hdiv
    by_cases hnew : content nd = []
    · rw [handleModGhost_eq_early color nd hg0 (Or.inr hnew)]
      refine ⟨rfl, rfl, rfl, ?_⟩
      show some (takeRightL s.max_context_chars (content nd)) = _
      rfl
    · rw [handleModGhost_eq_divergent color nd hg0 hold hnew hdiv]
      exact ⟨rfl, rfl, rfl, rfl⟩

theorem C1_modification_with_ghost_witness :
    (handleModGhost 0 (toSC "He fell down ") demoGhost).ghost_text
        = "on the mat.".data
    ∧ (handleModGhost 0 (toSC "He fell down ") demoGhost).doc
        = retagLast 5 (toSC "He fell down ")
    ∧ (handleModGhost 0 (toSC "He fell down ") demoGhost).last_text
        = "He fell down ".data := by
  have h := (C1_modification_with_ghost demoGhost demoGhost_reachable
    (by decide) (toSC "He fell down ") 0).1 (by decide)
  refine ⟨?_, ?_, ?_⟩
  · rw [h.2.1]
    decide
  · rw [h.1]
    decide
  · rw [h.2.2.2.2.1]
    decide
